import Mathlib

namespace NeuroLens

/-!
Verification of the trend-and-scoring aggregation engine of the NeuroLens
repository: composite cognitive scoring, trend analysis, risk-indicator
ranking, wellness-plan synthesis, wearable-metric bucketing, and the
error-handling behaviour of the surrounding route handlers.

Numbers are modelled as exact rationals (`ℚ`); JavaScript `NaN`, which the
trend analysis can produce by dividing an empty sum by a zero length, is
modelled explicitly by the `JSNum` type.
-/

/-- JavaScript `Math.round` on an exact rational: `Math.round x = ⌊x + 1/2⌋`
(round half toward positive infinity). -/

def jsRound (q : ℚ) : ℤ := ⌊q + 1/2⌋

/-- One row of the `detection_results` table, with the fields the aggregation
engine reads.  `risk_indicators` is a JSON object (or `null`); only key order,
key distinctness and the truthiness of each value matter to the engine, so an
entry is modelled as a key paired with the truthiness of its value. -/

structure DetectionResult where
  detection_type : String
  confidence_score : ℚ
  risk_indicators : Option (List (String × Bool))
  deriving DecidableEq

/-- The per-channel average used by `calculateCognitiveScore`:
`let avg = 0; if (results && results.length > 0) avg = sum / length`. -/

def channelAvg (rs : List DetectionResult) : ℚ :=
  if rs.length > 0 then (rs.map (fun r => r.confidence_score)).sum / rs.length
  else 0

/-- The status chain of `calculateCognitiveScore` (part_001 lines 656-664).
The initial value `'normal'` is overwritten on every branch of the
`if / else if / else` chain, so it never survives. -/

def scoreStatus (score : ℤ) : String :=
  if score < 50 then "concerning" else if score < 70 then "moderate" else "healthy"

/-- Return value of `calculateCognitiveScore` (the `component_scores` object is
flattened into three fields). -/

structure CognitiveHealth where
  cognitive_score : ℤ
  status : String
  areas_of_concern : List String
  facial_component : ℤ
  speech_component : ℤ
  behavioral_component : ℤ
  deriving DecidableEq

/-- `calculateCognitiveScore` (part_001 lines 630-683), as a function of the
three already-fetched channels (each limited to the 5 most recent rows by the
database query). -/

def calculateCognitiveScore
    (facialResults speechResults behavioralResults : List DetectionResult) :
    CognitiveHealth :=
  let facialWeight : ℚ := 0.35
  let speechWeight : ℚ := 0.4
  let behavioralWeight : ℚ := 0.25
  let facialAvg := channelAvg facialResults
  let speechAvg := channelAvg speechResults
  let behavioralAvg := channelAvg behavioralResults
  let cognitiveScore :=
    jsRound ((facialAvg * facialWeight + speechAvg * speechWeight +
      behavioralAvg * behavioralWeight) * 100)
  { cognitive_score := cognitiveScore
    status := scoreStatus cognitiveScore
    areas_of_concern :=
      (if facialAvg < 0.6 then ["facial expressions"] else []) ++
      (if speechAvg < 0.6 then ["speech patterns"] else []) ++
      (if behavioralAvg < 0.6 then ["behavioral responses"] else [])
    facial_component := jsRound (facialAvg * 100)
    speech_component := jsRound (speechAvg * 100)
    behavioral_component := jsRound (behavioralAvg * 100) }

/-! ### Trend analysis (`analyzeTrends`, part_001 lines 544-556)

JavaScript arithmetic on the trend path is exact rational arithmetic except
for one reachable non-finite value: when the first half of the series is
empty, `0 / 0` produces `NaN`.  `JSNum` models a JS number as either `NaN` or
a finite rational.  (JS also has `±Infinity` from dividing a nonzero value by
zero, but `analyzeTrends` only ever divides by a value that is either a
positive length or has passed the `!== 0` guard, so a nonzero-by-zero
division is unreachable; `jsDiv` collapses that case to `nan`.) -/

/-- A JavaScript number as seen by the trend analysis: `NaN` or a finite
rational. -/

inductive JSNum where
  | nan : JSNum
  | num (q : ℚ) : JSNum
  deriving DecidableEq

/-- JS subtraction: `NaN` propagates. -/

def jsSub : JSNum → JSNum → JSNum
  | .num a, .num b => .num (a - b)
  | _, _ => .nan

/-- JS multiplication: `NaN` propagates.  (`0 * Infinity = NaN` never arises
because infinities are unreachable here.) -/

def jsMul : JSNum → JSNum → JSNum
  | .num a, .num b => .num (a * b)
  | _, _ => .nan

/-- JS division: `0 / 0 = NaN`, `NaN` propagates; the nonzero-by-zero case
(`±Infinity` in JS) is unreachable in `analyzeTrends` and collapsed to
`nan`. -/

def jsDiv : JSNum → JSNum → JSNum
  | .num a, .num b => if b = 0 then .nan else .num (a / b)
  | _, _ => .nan

/-- JS `<`: any comparison involving `NaN` is `false`. -/

def jsLt : JSNum → JSNum → Bool
  | .num a, .num b => decide (a < b)
  | _, _ => false

/-- JS `Math.abs`. -/

def jsAbs : JSNum → JSNum
  | .num a => .num |a|
  | .nan => .nan

/-- The JS guard `x !== 0`: `NaN !== 0` is `true`. -/

def jsStrictNeZero : JSNum → Bool
  | .num a => decide (a ≠ 0)
  | .nan => true

/-- The half-split trend computation of `analyzeTrends`. -/

structure TrendCore where
  firstHalfAvg : JSNum
  secondHalfAvg : JSNum
  direction : String
  changePercentage : JSNum
  deriving DecidableEq

/-- `analyzeTrends`' half-split core (part_001 lines 544-556):
`firstHalf = data.slice(0, floor(n/2))`, `secondHalf = data.slice(floor(n/2))`,
each half averaged by `reduce(..., 0) / length`, direction by strict
comparison of the averages, and
`changePercentage = firstHalfAvg !== 0 ? abs(((secondHalfAvg - firstHalfAvg) / firstHalfAvg) * 100) : 0`. -/

def analyzeTrendsCore (data : List DetectionResult) : TrendCore :=
  let firstHalf := data.take (data.length / 2)
  let secondHalf := data.drop (data.length / 2)
  let firstHalfAvg :=
    jsDiv (.num (firstHalf.map (fun r => r.confidence_score)).sum) (.num firstHalf.length)
  let secondHalfAvg :=
    jsDiv (.num (secondHalf.map (fun r => r.confidence_score)).sum) (.num secondHalf.length)
  { firstHalfAvg := firstHalfAvg
    secondHalfAvg := secondHalfAvg
    direction :=
      if jsLt firstHalfAvg secondHalfAvg then "improving"
      else if jsLt secondHalfAvg firstHalfAvg then "declining"
      else "stable"
    changePercentage :=
      if jsStrictNeZero firstHalfAvg then
        jsAbs (jsMul (jsDiv (jsSub secondHalfAvg firstHalfAvg) firstHalfAvg) (.num 100))
      else .num 0 }

/-! ### Risk-indicator aggregation (`analyzeTrends`, part_001 lines 558-587) -/

/-- The truthy-valued indicator keys of one result, in `Object.entries` order
(the counting loop skips a `null` object and skips falsy values). -/

def truthyKeys (r : DetectionResult) : List String :=
  match r.risk_indicators with
  | none => []
  | some kvs => (kvs.filter (fun kv => kv.2)).map (fun kv => kv.1)

/-- One step of the counting loop:
`riskIndicators[key] = (riskIndicators[key] || 0) + 1`.  A key not yet present
is appended; JS objects keep first-insertion key order, which `Object.entries`
later reproduces. -/

def bumpKey : List (String × Nat) → String → List (String × Nat)
  | [], k => [(k, 1)]
  | (k', c) :: rest, k =>
      if k' = k then (k', c + 1) :: rest else (k', c) :: bumpKey rest k

/-- The `riskIndicators` count object built by the aggregation loop
(part_001 lines 559-568), as an association list in key-insertion
(first-seen) order. -/

def riskCounts (data : List DetectionResult) : List (String × Nat) :=
  data.foldl (fun acc r => (truthyKeys r).foldl bumpKey acc) []

/-- An entry of `sortedRiskIndicators` / `common_risk_indicators`. -/

structure RankedIndicator where
  indicator : String
  frequency : Nat
  percentage : ℚ
  deriving DecidableEq

/-- `sortedRiskIndicators` (part_001 lines 571-577): the count entries sorted
by descending count with JavaScript's stable `Array.prototype.sort`
(comparator `(a, b) => b[1] - a[1]`, under which `a` may precede `b` exactly
when `b[1] ≤ a[1]`; stable merge sort with that relation reproduces the
stable JS sort), then mapped to records carrying the percentage of the total
result count. -/

def sortedRiskIndicators (data : List DetectionResult) : List RankedIndicator :=
  ((riskCounts data).mergeSort (fun a b => decide (b.2 ≤ a.2))).map
    (fun kc => { indicator := kc.1, frequency := kc.2,
                 percentage := (kc.2 : ℚ) / data.length * 100 })

/-- `common_risk_indicators` (part_001 line 587): the top five entries. -/

def commonRiskIndicators (data : List DetectionResult) : List RankedIndicator :=
  (sortedRiskIndicators data).take 5

/-- Specification-side count: the number of results whose `riskIndicators`
value at key `k` is truthy. -/

def truthyCount (data : List DetectionResult) (k : String) : Nat :=
  (data.filter (fun r => decide (k ∈ truthyKeys r))).length

/-- Specification-side first-seen position of an indicator: the index of its
first occurrence in the stream of truthy indicator keys, visiting results in
order. -/

def firstSeenIndex (data : List DetectionResult) (k : String) : Nat :=
  (data.flatMap truthyKeys).indexOf k

/-- The first-seen key order of a key stream: each key is appended at its
first occurrence. -/

def firstSeenKeys (s : List String) : List String :=
  s.foldl (fun acc k => if k ∈ acc then acc else acc ++ [k]) []

/-- Proof-side reading of a count accumulator: the count stored at a key
(`0` when absent). -/

def lookupCount (acc : List (String × Nat)) (k : String) : Nat :=
  match acc.find? (fun p => p.1 == k) with
  | some p => p.2
  | none => 0

/-! ### Wellness plan synthesis and caching (src/app/api/wellness-plan/route.ts) -/

/-- One activity of a wellness plan (route.ts lines 66-158). -/

structure Activity where
  id : String
  title : String
  description : String
  frequency : String
  duration_minutes : Nat
  difficulty : String
  category : String
  deriving DecidableEq

def dailyCheckInActivity : Activity :=
  ⟨"daily-check-in", "Daily Cognitive Check-in",
   "Complete a brief daily assessment to track your cognitive health",
   "daily", 5, "easy", "monitoring"⟩

def mindfulnessActivity : Activity :=
  ⟨"mindfulness-practice", "Mindfulness Practice",
   "Practice mindfulness meditation to improve focus and reduce stress",
   "daily", 10, "easy", "wellness"⟩

def facialExercisesActivity : Activity :=
  ⟨"facial-exercises", "Facial Expression Exercises",
   "Practice facial movements and expressions to maintain muscle tone and expressiveness",
   "3x-weekly", 15, "moderate", "facial"⟩

def speechPracticeActivity : Activity :=
  ⟨"speech-practice", "Speech Articulation Practice",
   "Read passages aloud focusing on clear articulation and varied intonation",
   "daily", 15, "moderate", "speech"⟩

def wordRetrievalActivity : Activity :=
  ⟨"word-retrieval", "Word Retrieval Exercises",
   "Practice word-finding exercises to strengthen lexical retrieval",
   "2x-weekly", 20, "challenging", "speech"⟩

def memoryTrainingActivity : Activity :=
  ⟨"memory-training", "Memory Enhancement Training",
   "Complete memory exercises designed to strengthen recall and recognition",
   "daily", 20, "adaptive", "cognitive"⟩

def socialEngagementActivity : Activity :=
  ⟨"social-engagement", "Social Engagement Activity",
   "Schedule and participate in a social activity with friends or family",
   "weekly", 60, "moderate", "social"⟩

def physicalExerciseActivity : Activity :=
  ⟨"physical-exercise", "Physical Exercise Session",
   "Engage in moderate physical activity to promote brain health",
   "3x-weekly", 30, "moderate", "physical"⟩

/-- A row of `cognitive_scores` as the plan generator reads it
(`areas_of_concern` may be a JSON null, read through optional chaining). -/

structure CognitiveScoreRecord where
  score : ℤ
  status : String
  areas_of_concern : Option (List String)
  deriving DecidableEq

/-- The fallback used when no score row exists
(`{ score: 75, status: "moderate", areas_of_concern: [] }`). -/

def defaultCognitiveScore : CognitiveScoreRecord := ⟨75, "moderate", some []⟩

/-- Truthiness of `r.risk_indicators && r.risk_indicators.social_withdrawal`. -/

def socialWithdrawalTruthy (r : DetectionResult) : Bool :=
  match r.risk_indicators with
  | none => false
  | some kvs => (((kvs.find? (fun kv => kv.1 == "social_withdrawal")).map Prod.snd).getD false)

/-- The activity list built by `generateWellnessPlan`
(route.ts lines 57-158): two baseline activities, four condit; gated blocks
in source order, and the physical-exercise activity appended last. -/

def generatePlanActivities (cognitiveScore : CognitiveScoreRecord)
    (detectionResults : List DetectionResult) : List Activity :=
  let facialResults := detectionResults.filter (fun r => r.detection_type == "facial")
  let speechResults := detectionResults.filter (fun r => r.detection_type == "speech")
  let behavioralResults := detectionResults.filter (fun r => r.detection_type == "behavioral")
  [dailyCheckInActivity, mindfulnessActivity]
    ++ (if 0 < facialResults.length ∧ ∃ r ∈ facialResults, r.confidence_score < 0.7 then
          [facialExercisesActivity] else [])
    ++ (if 0 < speechResults.length ∧ ∃ r ∈ speechResults, r.confidence_score < 0.7 then
          [speechPracticeActivity, wordRetrievalActivity] else [])
    ++ (if cognitiveScore.score < 70 ∨ "memory" ∈ cognitiveScore.areas_of_concern.getD [] then
          [memoryTrainingActivity] else [])
    ++ (if 0 < behavioralResults.length ∧ ∃ r ∈ behavioralResults, socialWithdrawalTruthy r = true then
          [socialEngagementActivity] else [])
    ++ [physicalExerciseActivity]

/-- The generated plan fields the caching flow stores and returns. -/

structure PlanContent where
  title : String
  description : String
  activities : List Activity
  deriving DecidableEq

/-- The description's focus-area fragment:
`areas_of_concern?.join(", ") || "overall cognitive health"` (a `null` list
and an empty join are both falsy). -/

def focusAreasText (areas : Option (List String)) : String :=
  match areas with
  | none => "overall cognitive health"
  | some l =>
      if String.intercalate ", " l = "" then "overall cognitive health"
      else String.intercalate ", " l

/-- `generateWellnessPlan` (route.ts lines 11-196) as a function of the
already-fetched latest cognitive-score rows (descending, limit 1) and recent
detection rows (limit 10). -/

def generatePlanContent (cogScores : List CognitiveScoreRecord)
    (detections : List DetectionResult) : PlanContent :=
  let cognitiveScore := cogScores.headD defaultCognitiveScore
  { title := "Personalized Cognitive Wellness Plan"
    description :=
      "Customized plan based on your cognitive profile and recent assessments. Focus areas include "
        ++ focusAreasText cognitiveScore.areas_of_concern ++ "."
    activities := generatePlanActivities cognitiveScore detections }

/-- A stored `wellness_plans` row; `created_at` in epoch milliseconds. -/

structure StoredPlan where
  content : PlanContent
  is_active : Bool
  created_at : ℤ
  deriving DecidableEq

/-- The state the plan-fetch flow reads and writes. -/

structure PlanState where
  cogScores : List CognitiveScoreRecord
  detections : List DetectionResult
  plans : List StoredPlan
  deriving DecidableEq

/-- One step of selecting the newest plan (keeps the earlier row on equal
timestamps; the database leaves ties unspecified). -/

def pickLater (best : Option StoredPlan) (p : StoredPlan) : Option StoredPlan :=
  match best with
  | none => some p
  | some b => if b.created_at < p.created_at then some p else some b

/-- The `is_active = true, order created_at desc, limit 1` query
(route.ts lines 228-234). -/

def latestActivePlan (st : PlanState) : Option StoredPlan :=
  (st.plans.filter (fun p => p.is_active)).foldl pickLater none

/-- `Math.floor((Date.now() - planDate.getTime()) / (1000 * 60 * 60 * 24))`. -/

def ageInDays (now created : ℤ) : ℤ :=
  ⌊((now - created : ℤ) : ℚ) / 86400000⌋

/-- The JSON body of the plan GET response. -/

structure PlanResponse where
  plan : StoredPlan
  is_new : Bool
  days_remaining : ℤ
  deriving DecidableEq

/-- The plan GET flow (route.ts lines 227-285, successful-persistence path):
return the latest active plan when it is under 7 days old, otherwise generate
a new plan, insert it as active, and return it as new. -/

def planFetch (st : PlanState) (now : ℤ) : PlanResponse × PlanState :=
  match latestActivePlan st with
  | some p =>
    if ageInDays now p.created_at < 7 then
      ({ plan := p, is_new := false, days_remaining := 7 - ageInDays now p.created_at }, st)
    else
      let newPlan : StoredPlan :=
        { content := generatePlanContent st.cogScores st.detections
          is_active := true, created_at := now }
      ({ plan := newPlan, is_new := true, days_remaining := 7 },
       { st with plans := newPlan :: st.plans })
  | none =>
    let newPlan : StoredPlan :=
      { content := generatePlanContent st.cogScores st.detections
        is_active := true, created_at := now }
    ({ plan := newPlan, is_new := true, days_remaining := 7 },
     { st with plans := newPlan :: st.plans })

/-! ### Wearable metrics bucketing (src/app/api/wearable-data/route.ts) -/

/-- A `health_metrics` row's optional bucket fields. -/

structure HealthMetrics where
  resting_heart_rate : Option ℚ
  sleep_quality : Option String
  activity_level : Option String
  stress_level : Option String
  deriving DecidableEq

def emptyHealthMetrics : HealthMetrics := ⟨none, none, none, none⟩

/-- The `updateData` patch of `updateHealthMetrics` (route.ts lines 190-212)
merged into the same-day record; an unrecognized `dataType` returns without
writing, leaving the record unchanged. -/

def updateHealthMetrics (rec : HealthMetrics) (dataType : String) (value : ℚ) :
    HealthMetrics :=
  if dataType = "heart_rate" then
    { rec with resting_heart_rate := some value }
  else if dataType = "sleep" then
    let q := if 7 ≤ value then "good" else if 5 ≤ value then "fair" else "poor"
    { rec with sleep_quality := some q }
  else if dataType = "activity" then
    let q := if 10000 ≤ value then "high" else if 5000 ≤ value then "moderate" else "low"
    { rec with activity_level := some q }
  else if dataType = "stress" then
    let q := if value ≤ 30 then "low" else if value ≤ 70 then "moderate" else "high"
    { rec with stress_level := some q }
  else rec

/-! ### Error-handling models -/

/-- The tail of the PUT score handler (part_001 lines 826-842): the computed
value is inserted into `cognitive_scores`; on a database error the handler
logs and continues ("Continue anyway, as we want to return the score even if
saving fails"), so the computed value is the response body either way. -/

def putScoreResponse (cognitiveHealth : CognitiveHealth) (saveError : Option String) :
    CognitiveHealth :=
  match saveError with
  | some _ => cognitiveHealth
  | none => cognitiveHealth

/-- The plan value returned by the GET handler: the inserted row when the
save succeeded, the in-memory computed plan otherwise (`savedPlan || wellnessPlan`). -/

inductive ReturnedPlan where
  | stored (p : StoredPlan)
  | computed (c : PlanContent)
  deriving DecidableEq

structure PlanSaveResponse where
  plan : ReturnedPlan
  is_new : Bool
  days_remaining : ℤ
  deriving DecidableEq

/-- The synthesis tail of the plan GET handler (route.ts lines 262-285): the
generated plan is inserted; on a save error the handler logs and continues,
responding with the computed plan, `is_new = true` and `days_remaining = 7`. -/

def planSynthResponse (wellnessPlan : PlanContent) (now : ℤ) (saveError : Option String) :
    PlanSaveResponse :=
  match saveError with
  | some _ => { plan := .computed wellnessPlan, is_new := true, days_remaining := 7 }
  | none =>
    { plan := .stored { content := wellnessPlan, is_active := true, created_at := now }
      is_new := true, days_remaining := 7 }

def contentOfReturnedPlan : ReturnedPlan → PlanContent
  | .stored p => p.content
  | .computed c => c

/-- The database effects `updateHealthMetrics` can encounter: the
latest-metrics read (which can fail with a checked error) and the awaited
update/insert (whose rejection surfaces as a thrown exception). -/

structure MetricsDbOutcome where
  fetchResult : Except String (Option HealthMetrics)
  writeResult : Except String Unit

/-- The body of `updateHealthMetrics` (wearable-data route lines 175-243)
with its database effects injected: a failed fetch logs and returns; an
unrecognized `dataType` returns without writing; otherwise the update/insert
is awaited and its rejection would propagate as an exception. -/

def updateHealthMetricsBody (db : MetricsDbOutcome) (dataType : String)
    (_value : ℚ) : Except String Unit :=
  match db.fetchResult with
  | .error _ => .ok ()
  | .ok _latest =>
    if dataType = "heart_rate" ∨ dataType = "sleep" ∨ dataType = "activity" ∨
        dataType = "stress" then
      db.writeResult
    else
      .ok ()

/-- `updateHealthMetrics` wraps its whole body in `try/catch`; the catch
clause only logs, so every internal failure is swallowed and the function
always returns normally. -/

def updateHealthMetricsRun (db : MetricsDbOutcome) (dataType : String)
    (value : ℚ) : Except String Unit :=
  match updateHealthMetricsBody db dataType value with
  | .ok _ => .ok ()
  | .error _ => .ok ()

/-- The wearable-data POST responses distinguishable after validation/auth. -/

inductive PostResponse where
  | ok (msg : String)
  | dbError (msg : String)
  | serverError
  deriving DecidableEq

/-- The wearable-data POST handler after validation and auth (route.ts lines
50-80): a failed insert is a 500 "Failed to save wearable data"; otherwise
`updateHealthMetrics` is awaited (an exception escaping it would reach the
handler's catch and produce "Internal server error") and the success body is
returned. -/

def wearableDataPost (insertResult : Except String Unit) (db : MetricsDbOutcome)
    (dataType : String) (value : ℚ) : PostResponse :=
  match insertResult with
  | .error _ => .dbError "Failed to save wearable data"
  | .ok _ =>
    match updateHealthMetricsRun db dataType value with
    | .error _ => .serverError
    | .ok _ => .ok "Wearable data saved successfully"

/-- Concrete input for the claim C3 witness: indicators `a, b` truthy in the
first result, `b, c` truthy in the second, `c` falsy in the third. -/
def riskWitnessData : List DetectionResult :=
  [⟨"facial", 1, some [("a", true), ("b", true)]⟩,
   ⟨"facial", 1, some [("b", true), ("c", true)]⟩,
   ⟨"facial", 1, some [("c", false)]⟩]

/-- A concrete one-plan state for the claim C7 witness. -/
def witnessPlanState : PlanState :=
  { cogScores := [], detections := [],
    plans := [{ content := generatePlanContent [] [], is_active := true, created_at := 0 }] }

lemma channelAvg_nonneg (rs : List DetectionResult)
    (h : ∀ r ∈ rs, 0 ≤ r.confidence_score) : 0 ≤ channelAvg rs := by
  unfold channelAvg
  split
  · apply div_nonneg
    · apply List.sum_nonneg
      intro x hx
      obtain ⟨r, hr, rfl⟩ := List.mem_map.mp hx
      exact h r hr
    · positivity
  · exact le_refl 0

lemma channelAvg_le_one (rs : List DetectionResult)
    (h : ∀ r ∈ rs, r.confidence_score ≤ 1) : channelAvg rs ≤ 1 := by
  unfold channelAvg
  split
  · rename_i hlen
    rw [div_le_one (by exact_mod_cast hlen)]
    calc (rs.map (fun r => r.confidence_score)).sum
        ≤ (rs.map (fun r => r.confidence_score)).length • (1 : ℚ) := by
          apply List.sum_le_card_nsmul
          intro x hx
          obtain ⟨r, hr, rfl⟩ := List.mem_map.mp hx
          exact h r hr
      _ = rs.length := by simp
  · exact zero_le_one

lemma jsRound_nonneg {q : ℚ} (h : 0 ≤ q) : 0 ≤ jsRound q := by
  unfold jsRound
  exact Int.le_floor.mpr (by push_cast; linarith)

lemma jsRound_le {q : ℚ} {n : ℤ} (h : q ≤ n) : jsRound q ≤ n := by
  unfold jsRound
  have : ⌊q + 1/2⌋ < n + 1 := Int.floor_lt.mpr (by push_cast; linarith)
  omega

/-- The empty-channel convention of the claim: an empty channel contributes an
average of `0`, a non-empty one the arithmetic mean. -/
lemma channelAvg_eq (rs : List DetectionResult) :
    channelAvg rs =
      (if rs = [] then 0 else (rs.map (fun r => r.confidence_score)).sum / rs.length) := by
  unfold channelAvg
  rcases rs with _ | ⟨a, tl⟩ <;> simp

lemma cognitive_score_bounds
    (f s b : List DetectionResult)
    (hf : ∀ r ∈ f, 0 ≤ r.confidence_score ∧ r.confidence_score ≤ 1)
    (hs : ∀ r ∈ s, 0 ≤ r.confidence_score ∧ r.confidence_score ≤ 1)
    (hb : ∀ r ∈ b, 0 ≤ r.confidence_score ∧ r.confidence_score ≤ 1) :
    0 ≤ (calculateCognitiveScore f s b).cognitive_score ∧
      (calculateCognitiveScore f s b).cognitive_score ≤ 100 := by
  have hf0 := channelAvg_nonneg f (fun r hr => (hf r hr).1)
  have hf1 := channelAvg_le_one f (fun r hr => (hf r hr).2)
  have hs0 := channelAvg_nonneg s (fun r hr => (hs r hr).1)
  have hs1 := channelAvg_le_one s (fun r hr => (hs r hr).2)
  have hb0 := channelAvg_nonneg b (fun r hr => (hb r hr).1)
  have hb1 := channelAvg_le_one b (fun r hr => (hb r hr).2)
  constructor
  · exact jsRound_nonneg (by nlinarith)
  · exact jsRound_le (n := 100) (by push_cast; nlinarith)

/-- Claim C1: with up to 5 most-recent results per channel, each with
confidence in `[0,1]`, the composite score equals
`round((facialAvg*0.35 + speechAvg*0.40 + behavioralAvg*0.25) * 100)` as an
integer in `0`-`100`, where an empty channel contributes an average of `0`
(weights are not renormalised), and each component score equals
`round(channelAvg * 100)`. -/
theorem composite_score_correct
    (f s b : List DetectionResult)
    (hf : ∀ r ∈ f, 0 ≤ r.confidence_score ∧ r.confidence_score ≤ 1)
    (hs : ∀ r ∈ s, 0 ≤ r.confidence_score ∧ r.confidence_score ≤ 1)
    (hb : ∀ r ∈ b, 0 ≤ r.confidence_score ∧ r.confidence_score ≤ 1)
    (hfl : f.length ≤ 5) (hsl : s.length ≤ 5) (hbl : b.length ≤ 5) :
    (calculateCognitiveScore f s b).cognitive_score =
      jsRound
        (((if f = [] then 0 else (f.map (fun r => r.confidence_score)).sum / f.length) * 0.35 +
          (if s = [] then 0 else (s.map (fun r => r.confidence_score)).sum / s.length) * 0.4 +
          (if b = [] then 0 else (b.map (fun r => r.confidence_score)).sum / b.length) * 0.25)
          * 100) ∧
    0 ≤ (calculateCognitiveScore f s b).cognitive_score ∧
    (calculateCognitiveScore f s b).cognitive_score ≤ 100 ∧
    (calculateCognitiveScore f s b).facial_component =
      jsRound ((if f = [] then 0 else (f.map (fun r => r.confidence_score)).sum / f.length) * 100) ∧
    (calculateCognitiveScore f s b).speech_component =
      jsRound ((if s = [] then 0 else (s.map (fun r => r.confidence_score)).sum / s.length) * 100) ∧
    (calculateCognitiveScore f s b).behavioral_component =
      jsRound ((if b = [] then 0 else (b.map (fun r => r.confidence_score)).sum / b.length) * 100) := by
  obtain ⟨h0, h1⟩ := cognitive_score_bounds f s b hf hs hb
  refine ⟨?_, h0, h1, ?_, ?_, ?_⟩ <;>
    simp only [calculateCognitiveScore, ← channelAvg_eq]

/-- Claim C1 witness: the spec's end-to-end scenario, facial avg `0.8`, speech
avg `0.5`, behavioral avg `0.9`, gives composite `round(70.5) = 71`. -/
theorem composite_score_correct_witness :
    ((0:ℚ) ≤ 0.8 ∧ (0.8:ℚ) ≤ 1) ∧
    (calculateCognitiveScore [⟨"facial", 0.8, none⟩] [⟨"speech", 0.5, none⟩]
        [⟨"behavioral", 0.9, none⟩]).cognitive_score =
      jsRound
        (((if ([⟨"facial", 0.8, none⟩] : List DetectionResult) = [] then 0 else
            (([⟨"facial", 0.8, none⟩] : List DetectionResult).map
              (fun r => r.confidence_score)).sum /
            ([(⟨"facial", 0.8, none⟩ : DetectionResult)] : List DetectionResult).length) * 0.35 +
          (if ([⟨"speech", 0.5, none⟩] : List DetectionResult) = [] then 0 else
            (([⟨"speech", 0.5, none⟩] : List DetectionResult).map
              (fun r => r.confidence_score)).sum /
            ([(⟨"speech", 0.5, none⟩ : DetectionResult)] : List DetectionResult).length) * 0.4 +
          (if ([⟨"behavioral", 0.9, none⟩] : List DetectionResult) = [] then 0 else
            (([⟨"behavioral", 0.9, none⟩] : List DetectionResult).map
              (fun r => r.confidence_score)).sum /
            ([(⟨"behavioral", 0.9, none⟩ : DetectionResult)] : List DetectionResult).length) * 0.25)
          * 100) := by
  constructor
  · constructor <;> norm_num
  · exact (composite_score_correct
      [⟨"facial", 0.8, none⟩] [⟨"speech", 0.5, none⟩] [⟨"behavioral", 0.9, none⟩]
      (by intro r hr; simp at hr; subst hr; constructor <;> norm_num)
      (by intro r hr; simp at hr; subst hr; constructor <;> norm_num)
      (by intro r hr; simp at hr; subst hr; constructor <;> norm_num)
      (by simp) (by simp) (by simp)).1

/-- Claim C2: for scores produced by `calculateCognitiveScore` (on confidences
in `[0,1]`), the status is "concerning" iff the score is in `[0,50)`,
"moderate" iff it is in `[50,70)`, "healthy" iff it is at least `70`; the
cases are exhaustive, so no other status is ever returned. -/
theorem status_partition
    (f s b : List DetectionResult)
    (hf : ∀ r ∈ f, 0 ≤ r.confidence_score ∧ r.confidence_score ≤ 1)
    (hs : ∀ r ∈ s, 0 ≤ r.confidence_score ∧ r.confidence_score ≤ 1)
    (hb : ∀ r ∈ b, 0 ≤ r.confidence_score ∧ r.confidence_score ≤ 1) :
    ((calculateCognitiveScore f s b).status = "concerning" ↔
      0 ≤ (calculateCognitiveScore f s b).cognitive_score ∧
        (calculateCognitiveScore f s b).cognitive_score < 50) ∧
    ((calculateCognitiveScore f s b).status = "moderate" ↔
      50 ≤ (calculateCognitiveScore f s b).cognitive_score ∧
        (calculateCognitiveScore f s b).cognitive_score < 70) ∧
    ((calculateCognitiveScore f s b).status = "healthy" ↔
      70 ≤ (calculateCognitiveScore f s b).cognitive_score) ∧
    ((calculateCognitiveScore f s b).status = "concerning" ∨
      (calculateCognitiveScore f s b).status = "moderate" ∨
      (calculateCognitiveScore f s b).status = "healthy") := by
  obtain ⟨h0, -⟩ := cognitive_score_bounds f s b hf hs hb
  have hst : (calculateCognitiveScore f s b).status =
      scoreStatus (calculateCognitiveScore f s b).cognitive_score := rfl
  set n := (calculateCognitiveScore f s b).cognitive_score with hn
  rw [hst]
  unfold scoreStatus
  by_cases h50 : n < 50
  · simp only [h50, if_true]
    refine ⟨?_, ?_, ?_, ?_⟩ <;> simp_all <;> omega
  · by_cases h70 : n < 70
    · simp only [h50, if_false, h70, if_true]
      refine ⟨?_, ?_, ?_, ?_⟩ <;> simp_all <;> omega
    · simp only [h50, if_false, h70]
      refine ⟨?_, ?_, ?_, ?_⟩ <;> simp_all <;> omega

/-- Claim C2 witness: with empty channels the score is `0` and the status is
"concerning". -/
theorem status_partition_witness :
    ((calculateCognitiveScore [] [] []).status = "concerning" ↔
      0 ≤ (calculateCognitiveScore [] [] []).cognitive_score ∧
        (calculateCognitiveScore [] [] []).cognitive_score < 50) ∧
    (calculateCognitiveScore [] [] []).status = "concerning" := by
  have h := status_partition [] [] []
    (by intro r hr; simp at hr) (by intro r hr; simp at hr) (by intro r hr; simp at hr)
  have hval : (calculateCognitiveScore [] [] []).cognitive_score = 0 := by
    show jsRound ((channelAvg [] * 0.35 + channelAvg [] * 0.4 + channelAvg [] * 0.25) * 100) = 0
    have h0 : channelAvg [] = 0 := by simp [channelAvg]
    rw [h0]
    unfold jsRound
    rw [Int.floor_eq_zero_iff]
    constructor <;> norm_num
  refine ⟨h.1, ?_⟩
  exact h.1.mpr (by rw [hval]; exact ⟨le_refl 0, by norm_num⟩)

/-- Claim C4 (code bug): on a single-element series the first half is empty,
its average is `0 / 0 = NaN`, the `!== 0` guard passes for `NaN`, and the
change percentage is `NaN` — not the `0` the specification requires.  The
direction is "stable" as claimed (every comparison with `NaN` is false). -/
theorem single_element_trend_eval :
    (analyzeTrendsCore [⟨"facial", 0.8, none⟩]).direction = "stable" ∧
    (analyzeTrendsCore [⟨"facial", 0.8, none⟩]).changePercentage = JSNum.nan ∧
    (analyzeTrendsCore [⟨"facial", 0.8, none⟩]).changePercentage ≠ JSNum.num 0 := by
  refine ⟨?_, ?_, ?_⟩ <;> decide

/-- Claim C5: whenever the computed first-half average is exactly `0` (a
finite zero, as opposed to the `NaN` of an empty first half), the change
percentage is `0` regardless of the second-half scores. -/
theorem zero_baseline_guard (data : List DetectionResult)
    (h : (analyzeTrendsCore data).firstHalfAvg = JSNum.num 0) :
    (analyzeTrendsCore data).changePercentage = JSNum.num 0 := by
  unfold analyzeTrendsCore at h ⊢
  simp only at h ⊢
  rw [h]
  simp [jsStrictNeZero]

/-- Claim C5 witness: series `[0, 4, 6]` has first half `[0]` with average
`0`, and the change percentage is `0` despite a large second-half average. -/
theorem zero_baseline_guard_witness :
    (analyzeTrendsCore [⟨"facial", 0, none⟩, ⟨"facial", 4, none⟩, ⟨"facial", 6, none⟩]).firstHalfAvg
      = JSNum.num 0 ∧
    (analyzeTrendsCore [⟨"facial", 0, none⟩, ⟨"facial", 4, none⟩, ⟨"facial", 6, none⟩]).changePercentage
      = JSNum.num 0 := by
  have h : (analyzeTrendsCore
      [⟨"facial", 0, none⟩, ⟨"facial", 4, none⟩, ⟨"facial", 6, none⟩]).firstHalfAvg
      = JSNum.num 0 := by
    norm_num [analyzeTrendsCore, jsDiv]
  exact ⟨h, zero_baseline_guard _ h⟩

lemma mem_foldl_firstSeen (s : List String) (acc : List String) (x : String) :
    x ∈ s.foldl (fun a k => if k ∈ a then a else a ++ [k]) acc ↔ x ∈ acc ∨ x ∈ s := by
  induction s generalizing acc with
  | nil => simp
  | cons a tl ih =>
    simp only [List.foldl_cons, ih, List.mem_cons]
    by_cases h : a ∈ acc
    · simp only [h, if_true]
      constructor
      · rintro (hx | hx)
        · exact Or.inl hx
        · exact Or.inr (Or.inr hx)
      · rintro (hx | rfl | hx)
        · exact Or.inl hx
        · exact Or.inl h
        · exact Or.inr hx
    · simp only [h, if_false, List.mem_append, List.mem_singleton]
      tauto

lemma mem_firstSeenKeys {s : List String} {x : String} :
    x ∈ firstSeenKeys s ↔ x ∈ s := by
  unfold firstSeenKeys
  rw [mem_foldl_firstSeen]
  simp

lemma nodup_foldl_firstSeen (s : List String) (acc : List String) (h : acc.Nodup) :
    (s.foldl (fun a k => if k ∈ a then a else a ++ [k]) acc).Nodup := by
  induction s generalizing acc with
  | nil => exact h
  | cons a tl ih =>
    simp only [List.foldl_cons]
    apply ih
    by_cases ha : a ∈ acc
    · simpa [ha]
    · simp [ha, List.nodup_append, h]

lemma nodup_firstSeenKeys (s : List String) : (firstSeenKeys s).Nodup :=
  nodup_foldl_firstSeen s [] List.nodup_nil

lemma firstSeenKeys_append_singleton (s : List String) (k : String) :
    firstSeenKeys (s ++ [k]) =
      if k ∈ firstSeenKeys s then firstSeenKeys s else firstSeenKeys s ++ [k] := by
  unfold firstSeenKeys
  rw [List.foldl_append]
  rfl

lemma firstSeenKeys_pairwise_indexOf (s : List String) :
    (firstSeenKeys s).Pairwise (fun a b => s.indexOf a < s.indexOf b) := by
  induction s using List.reverseRecOn with
  | nil => simp [firstSeenKeys]
  | append_singleton s k ih =>
    rw [firstSeenKeys_append_singleton]
    by_cases hk : k ∈ firstSeenKeys s
    · simp only [hk, if_true]
      refine ih.imp_of_mem ?_
      intro a b ha hb hab
      rw [List.indexOf_append_of_mem (mem_firstSeenKeys.mp ha),
        List.indexOf_append_of_mem (mem_firstSeenKeys.mp hb)]
      exact hab
    · simp only [hk, if_false]
      rw [List.pairwise_append]
      refine ⟨?_, by simp, ?_⟩
      · refine ih.imp_of_mem ?_
        intro a b ha hb hab
        rw [List.indexOf_append_of_mem (mem_firstSeenKeys.mp ha),
          List.indexOf_append_of_mem (mem_firstSeenKeys.mp hb)]
        exact hab
      · intro a ha b hb
        rw [List.mem_singleton] at hb
        rw [hb]
        have ha' : a ∈ s := mem_firstSeenKeys.mp ha
        have hk' : k ∉ s := fun hmem => hk (mem_firstSeenKeys.mpr hmem)
        rw [List.indexOf_append_of_mem ha', List.indexOf_append_of_not_mem hk']
        have h1 : s.indexOf a < s.length := List.indexOf_lt_length.mpr ha'
        have h2 : List.indexOf k [k] = 0 := by simp
        omega

lemma lookupCount_cons (k' : String) (c : Nat) (tl : List (String × Nat)) (x : String) :
    lookupCount ((k', c) :: tl) x = if k' = x then c else lookupCount tl x := by
  unfold lookupCount
  rw [List.find?_cons]
  by_cases h : k' = x
  · subst h
    simp
  · have hb : (k' == x) = false := by simp [h]
    simp [hb, h]

lemma bumpKey_map_fst (acc : List (String × Nat)) (k : String) :
    (bumpKey acc k).map Prod.fst =
      if k ∈ acc.map Prod.fst then acc.map Prod.fst else acc.map Prod.fst ++ [k] := by
  induction acc with
  | nil => simp [bumpKey]
  | cons p tl ih =>
    obtain ⟨k', c⟩ := p
    by_cases h : k' = k
    · simp [bumpKey, h]
    · have h' : ¬ k = k' := fun hh => h hh.symm
      simp only [bumpKey, h, if_false, List.map_cons, List.mem_cons, ih]
      by_cases hmem : k ∈ tl.map Prod.fst
      · simp [hmem, h']
      · simp [hmem, h']

lemma lookupCount_bumpKey (acc : List (String × Nat)) (k x : String) :
    lookupCount (bumpKey acc k) x = lookupCount acc x + (if x = k then 1 else 0) := by
  induction acc with
  | nil =>
    show lookupCount [(k, 1)] x = lookupCount [] x + (if x = k then 1 else 0)
    rw [lookupCount_cons]
    by_cases h : x = k
    · simp [lookupCount, h]
    · have h' : ¬ k = x := fun hh => h hh.symm
      simp [lookupCount, h, h']
  | cons p tl ih =>
    obtain ⟨k', c⟩ := p
    by_cases hk : k' = k
    · subst hk
      rw [show bumpKey ((k', c) :: tl) k' = (k', c + 1) :: tl from by simp [bumpKey]]
      rw [lookupCount_cons, lookupCount_cons]
      by_cases hx : k' = x
      · simp [hx]
      · have hx' : ¬ x = k' := fun hh => hx hh.symm
        simp [hx, hx']
    · rw [show bumpKey ((k', c) :: tl) k = (k', c) :: bumpKey tl k from by simp [bumpKey, hk]]
      rw [lookupCount_cons, lookupCount_cons]
      by_cases hx : k' = x
      · have hx' : ¬ x = k := fun hh => hk (hx.trans hh)
        simp [hx, hx']
      · simp [hx, ih]

lemma lookupCount_foldl (s : List String) (acc : List (String × Nat)) (x : String) :
    lookupCount (s.foldl bumpKey acc) x = lookupCount acc x + s.count x := by
  induction s generalizing acc with
  | nil => simp
  | cons a tl ih =>
    simp only [List.foldl_cons, ih, lookupCount_bumpKey]
    rw [List.count_cons]
    by_cases h : x = a
    · have hb : (x == a) = true := by simp [h]
      simp [h, hb]
      omega
    · have hb : (x == a) = false := by simp [h]
      have ha : ¬ a = x := fun hh => h hh.symm
      simp [h, hb, ha]

lemma entry_eq_lookupCount (acc : List (String × Nat))
    (hnd : (acc.map Prod.fst).Nodup) {p : String × Nat} (hp : p ∈ acc) :
    p.2 = lookupCount acc p.1 := by
  induction acc with
  | nil => cases hp
  | cons q tl ih =>
    obtain ⟨k', c⟩ := q
    rcases List.mem_cons.mp hp with rfl | hp'
    · simp [lookupCount_cons]
    · have hk' : ¬ k' = p.1 := by
        intro hh
        have hmem : p.1 ∈ tl.map Prod.fst := List.mem_map.mpr ⟨p, hp', rfl⟩
        rw [List.map_cons] at hnd
        exact (List.nodup_cons.mp hnd).1 (hh ▸ hmem)
      rw [lookupCount_cons, if_neg hk']
      exact ih (by rw [List.map_cons] at hnd; exact (List.nodup_cons.mp hnd).2) hp'

lemma riskCounts_eq_stream (data : List DetectionResult) :
    riskCounts data = (data.flatMap truthyKeys).foldl bumpKey [] := by
  suffices h : ∀ acc, data.foldl (fun acc r => (truthyKeys r).foldl bumpKey acc) acc
      = (data.flatMap truthyKeys).foldl bumpKey acc from h []
  induction data with
  | nil => intro acc; rfl
  | cons r tl ih =>
    intro acc
    simp only [List.foldl_cons, List.flatMap_cons, List.foldl_append, ih]

lemma foldl_bumpKey_map_fst (s : List String) (acc : List (String × Nat)) :
    (s.foldl bumpKey acc).map Prod.fst =
      s.foldl (fun a k => if k ∈ a then a else a ++ [k]) (acc.map Prod.fst) := by
  induction s generalizing acc with
  | nil => rfl
  | cons a tl ih =>
    simp only [List.foldl_cons, ih, bumpKey_map_fst]

lemma riskCounts_map_fst (data : List DetectionResult) :
    (riskCounts data).map Prod.fst = firstSeenKeys (data.flatMap truthyKeys) := by
  rw [riskCounts_eq_stream]
  rw [foldl_bumpKey_map_fst]
  rfl

lemma riskCounts_nodup (data : List DetectionResult) : (riskCounts data).Nodup :=
  List.Nodup.of_map Prod.fst (riskCounts_map_fst data ▸ nodup_firstSeenKeys _)

lemma riskCounts_entry_val (data : List DetectionResult) {p : String × Nat}
    (hp : p ∈ riskCounts data) :
    p.2 = (data.flatMap truthyKeys).count p.1 := by
  have hnd : ((riskCounts data).map Prod.fst).Nodup :=
    riskCounts_map_fst data ▸ nodup_firstSeenKeys _
  rw [entry_eq_lookupCount (riskCounts data) hnd hp, riskCounts_eq_stream,
    lookupCount_foldl]
  simp [lookupCount]

lemma truthyKeys_nodup (r : DetectionResult)
    (h : ((r.risk_indicators.getD []).map Prod.fst).Nodup) :
    (truthyKeys r).Nodup := by
  unfold truthyKeys
  cases hri : r.risk_indicators with
  | none => simp
  | some kvs =>
    rw [hri] at h
    simp only [Option.getD_some] at h
    exact List.Nodup.sublist ((List.filter_sublist kvs).map Prod.fst) h

lemma stream_count_eq_truthyCount (data : List DetectionResult)
    (hnd : ∀ r ∈ data, ((r.risk_indicators.getD []).map Prod.fst).Nodup) (k : String) :
    (data.flatMap truthyKeys).count k = truthyCount data k := by
  induction data with
  | nil => rfl
  | cons r tl ih =>
    have hkr : (truthyKeys r).Nodup := truthyKeys_nodup r (hnd r (List.mem_cons_self r tl))
    have ihtl := ih (fun r' hr' => hnd r' (List.mem_cons_of_mem r hr'))
    simp only [List.flatMap_cons, List.count_append, truthyCount, List.filter_cons]
    unfold truthyCount at ihtl
    by_cases hk : k ∈ truthyKeys r
    · have hd : (decide (k ∈ truthyKeys r)) = true := by simp [hk]
      rw [List.count_eq_one_of_mem hkr hk, hd]
      simp only [if_true, List.length_cons]
      omega
    · have hd : (decide (k ∈ truthyKeys r)) = false := by simp [hk]
      rw [List.count_eq_zero_of_not_mem hk, hd]
      simp only [Bool.false_eq_true, if_false]
      omega

lemma pair_sublist_or {α : Type} {l : List α} {p q : α}
    (hp : p ∈ l) (hq : q ∈ l) (hne : p ≠ q) :
    List.Sublist [p, q] l ∨ List.Sublist [q, p] l := by
  induction l with
  | nil => cases hp
  | cons x tl ih =>
    rcases List.mem_cons.mp hp with rfl | hp'
    · have hq' : q ∈ tl := by
        rcases List.mem_cons.mp hq with rfl | h
        · exact absurd rfl hne
        · exact h
      exact Or.inl ((List.singleton_sublist.mpr hq').cons₂ p)
    · rcases List.mem_cons.mp hq with rfl | hq'
      · exact Or.inr ((List.singleton_sublist.mpr hp').cons₂ q)
      · rcases ih hp' hq' with h | h
        · exact Or.inl (h.cons x)
        · exact Or.inr (h.cons x)

lemma pair_sublist_antisymm {α : Type} {l : List α} (hnd : l.Nodup) {p q : α}
    (h1 : List.Sublist [p, q] l) (h2 : List.Sublist [q, p] l) : p = q := by
  induction l with
  | nil => simp at h1
  | cons x tl ih =>
    obtain ⟨hx, htl⟩ := List.nodup_cons.mp hnd
    cases h1 with
    | cons _ h1' =>
      cases h2 with
      | cons _ h2' => exact ih htl h1' h2'
      | cons₂ _ h2' => exact absurd (h1'.subset (by simp)) hx
    | cons₂ _ h1' =>
      cases h2 with
      | cons _ h2' => exact absurd (h2'.subset (by simp)) hx
      | cons₂ _ h2' => rfl

lemma mergeSort_by_count_trans :
    ∀ a b c : String × Nat,
      (fun a b : String × Nat => decide (b.2 ≤ a.2)) a b →
      (fun a b : String × Nat => decide (b.2 ≤ a.2)) b c →
      (fun a b : String × Nat => decide (b.2 ≤ a.2)) a c := by
  intro a b c hab hbc
  simp only [decide_eq_true_eq] at *
  omega

lemma mergeSort_by_count_total :
    ∀ a b : String × Nat,
      ((fun a b : String × Nat => decide (b.2 ≤ a.2)) a b ||
        (fun a b : String × Nat => decide (b.2 ≤ a.2)) b a) := by
  intro a b
  simp only [Bool.or_eq_true, decide_eq_true_eq]
  omega

lemma riskCounts_entry_pos (data : List DetectionResult) {p : String × Nat}
    (hp : p ∈ riskCounts data) : 0 < p.2 := by
  have hkey : p.1 ∈ (riskCounts data).map Prod.fst := List.mem_map.mpr ⟨p, hp, rfl⟩
  rw [riskCounts_map_fst] at hkey
  have hstream : p.1 ∈ data.flatMap truthyKeys := mem_firstSeenKeys.mp hkey
  rw [riskCounts_entry_val data hp]
  exact List.count_pos_iff.mpr hstream

lemma riskCounts_length (data : List DetectionResult) :
    (riskCounts data).length = (data.flatMap truthyKeys).dedup.length := by
  have h1 : (riskCounts data).length = (firstSeenKeys (data.flatMap truthyKeys)).length := by
    rw [← riskCounts_map_fst]
    simp
  rw [h1]
  have hperm : List.Perm (firstSeenKeys (data.flatMap truthyKeys))
      (data.flatMap truthyKeys).dedup := by
    rw [List.perm_ext_iff_of_nodup (nodup_firstSeenKeys _) (List.nodup_dedup _)]
    intro a
    rw [mem_firstSeenKeys, List.mem_dedup]
  exact hperm.length_eq

lemma truthy_key_mem_riskCounts (data : List DetectionResult)
    (hnd : ∀ r ∈ data, ((r.risk_indicators.getD []).map Prod.fst).Nodup)
    {k : String} (hk : 0 < truthyCount data k) :
    ∃ p ∈ riskCounts data, p.1 = k := by
  have hcount : 0 < (data.flatMap truthyKeys).count k := by
    rw [stream_count_eq_truthyCount data hnd]
    exact hk
  have hstream : k ∈ data.flatMap truthyKeys := List.count_pos_iff.mp hcount
  have hkey : k ∈ (riskCounts data).map Prod.fst := by
    rw [riskCounts_map_fst]
    exact mem_firstSeenKeys.mpr hstream
  obtain ⟨p, hp, hpk⟩ := List.mem_map.mp hkey
  exact ⟨p, hp, hpk⟩

/-- Claim C3: for a result sequence whose per-result indicator keys are
distinct (as JS object keys are), the aggregation counts, per indicator key,
the results whose value at that key is truthy, and returns the counted
indicators — all of them when at most five are distinct, exactly five
otherwise, every omitted indicator being preceded by each retained entry in
the (descending frequency, first-seen tie-break) order — as entries with
`percentage = frequency / totalResultCount * 100` and distinct indicator
names, sorted by descending frequency with ties in first-seen order. -/
theorem risk_indicator_ranking (data : List DetectionResult)
    (hnd : ∀ r ∈ data, ((r.risk_indicators.getD []).map Prod.fst).Nodup) :
    (commonRiskIndicators data).length ≤ 5 ∧
    (commonRiskIndicators data).length = min 5 (data.flatMap truthyKeys).dedup.length ∧
    ((commonRiskIndicators data).map (fun e => e.indicator)).Nodup ∧
    (∀ e ∈ commonRiskIndicators data,
      0 < truthyCount data e.indicator ∧
      e.frequency = truthyCount data e.indicator ∧
      e.percentage = (truthyCount data e.indicator : ℚ) / data.length * 100) ∧
    (commonRiskIndicators data).Pairwise
      (fun a b => b.frequency ≤ a.frequency) ∧
    (commonRiskIndicators data).Pairwise
      (fun a b => a.frequency = b.frequency →
        firstSeenIndex data a.indicator < firstSeenIndex data b.indicator) ∧
    (∀ k : String, 0 < truthyCount data k →
      (∃ e ∈ commonRiskIndicators data, e.indicator = k) ∨
      ((commonRiskIndicators data).length = 5 ∧
        ∀ e ∈ commonRiskIndicators data,
          truthyCount data k < e.frequency ∨
          (truthyCount data k = e.frequency ∧
            firstSeenIndex data e.indicator < firstSeenIndex data k))) := by
  have hsort := List.sorted_mergeSort mergeSort_by_count_trans mergeSort_by_count_total
    (riskCounts data)
  have hperm := List.mergeSort_perm (riskCounts data)
    (fun a b : String × Nat => decide (b.2 ≤ a.2))
  have hLnd : ((riskCounts data).mergeSort
      (fun a b : String × Nat => decide (b.2 ≤ a.2))).Nodup :=
    hperm.nodup_iff.mpr (riskCounts_nodup data)
  have hrcPW : (riskCounts data).Pairwise
      (fun p q => firstSeenIndex data p.1 < firstSeenIndex data q.1) := by
    have h := firstSeenKeys_pairwise_indexOf (data.flatMap truthyKeys)
    rw [← riskCounts_map_fst data, List.pairwise_map] at h
    exact h
  have hstab : ((riskCounts data).mergeSort
      (fun a b : String × Nat => decide (b.2 ≤ a.2))).Pairwise
      (fun p q => p.2 = q.2 → firstSeenIndex data p.1 < firstSeenIndex data q.1) := by
    rw [List.pairwise_iff_forall_sublist]
    intro p q hsub hpq
    have hpqne : p ≠ q := by
      have h2 := List.Nodup.sublist hsub hLnd
      simpa using h2
    have hpm : p ∈ riskCounts data := by
      have : p ∈ (riskCounts data).mergeSort
          (fun a b : String × Nat => decide (b.2 ≤ a.2)) := hsub.subset (by simp)
      rwa [List.mem_mergeSort] at this
    have hqm : q ∈ riskCounts data := by
      have : q ∈ (riskCounts data).mergeSort
          (fun a b : String × Nat => decide (b.2 ≤ a.2)) := hsub.subset (by simp)
      rwa [List.mem_mergeSort] at this
    rcases pair_sublist_or hpm hqm hpqne with hor | hor
    · exact List.pairwise_iff_forall_sublist.mp hrcPW hor
    · exfalso
      have hle : (fun a b : String × Nat => decide (b.2 ≤ a.2)) q p := by
        simp [hpq]
      have hqp := List.pair_sublist_mergeSort mergeSort_by_count_trans
        mergeSort_by_count_total hle hor
      exact hpqne (pair_sublist_antisymm hLnd hsub hqp)
  have hout : commonRiskIndicators data =
      (((riskCounts data).mergeSort (fun a b : String × Nat => decide (b.2 ≤ a.2))).map
        (fun kc => RankedIndicator.mk kc.1 kc.2 ((kc.2 : ℚ) / data.length * 100))).take 5 := rfl
  have hval : ∀ p ∈ riskCounts data, p.2 = truthyCount data p.1 := by
    intro p hp
    rw [riskCounts_entry_val data hp, stream_count_eq_truthyCount data hnd]
  refine ⟨?_, ?_, ?_, ?_, ?_, ?_, ?_⟩
  · rw [hout]
    simp only [List.length_take, List.length_map]
    omega
  · rw [hout]
    simp only [List.length_take, List.length_map, List.length_mergeSort]
    rw [riskCounts_length]
  · have hfst : (((riskCounts data).mergeSort
        (fun a b : String × Nat => decide (b.2 ≤ a.2))).map Prod.fst).Nodup :=
      (hperm.map Prod.fst).nodup_iff.mpr
        (riskCounts_map_fst data ▸ nodup_firstSeenKeys (data.flatMap truthyKeys))
    have key : ((((riskCounts data).mergeSort
          (fun a b : String × Nat => decide (b.2 ≤ a.2))).map
          (fun kc => RankedIndicator.mk kc.1 kc.2 ((kc.2 : ℚ) / data.length * 100))).take 5).map
          (fun e => e.indicator) =
        (((riskCounts data).mergeSort
          (fun a b : String × Nat => decide (b.2 ≤ a.2))).take 5).map Prod.fst := by
      rw [← List.map_take, List.map_map]
      rfl
    rw [hout, key]
    exact List.Nodup.sublist ((List.take_sublist _ _).map Prod.fst) hfst
  · intro e he
    rw [hout] at he
    have he' := List.mem_of_mem_take he
    obtain ⟨kc, hkcL, rfl⟩ := List.mem_map.mp he'
    have hkc : kc ∈ riskCounts data := List.mem_mergeSort.mp hkcL
    have hv := hval kc hkc
    refine ⟨?_, hv, by rw [hv]⟩
    show 0 < truthyCount data kc.1
    have hpos := riskCounts_entry_pos data hkc
    omega
  · rw [hout]
    refine List.Pairwise.sublist (List.take_sublist _ _) ?_
    refine List.Pairwise.map _ ?_ hsort
    intro a b hab
    simpa using hab
  · rw [hout]
    refine List.Pairwise.sublist (List.take_sublist _ _) ?_
    refine List.Pairwise.map _ ?_ hstab
    intro a b hab
    exact hab
  · intro k hk
    obtain ⟨pk, hpkrc, hpk1⟩ := truthy_key_mem_riskCounts data hnd hk
    have hpkL : pk ∈ (riskCounts data).mergeSort
        (fun a b : String × Nat => decide (b.2 ≤ a.2)) := List.mem_mergeSort.mpr hpkrc
    have hsplit : (riskCounts data).mergeSort
          (fun a b : String × Nat => decide (b.2 ≤ a.2)) =
        ((riskCounts data).mergeSort
          (fun a b : String × Nat => decide (b.2 ≤ a.2))).take 5 ++
        ((riskCounts data).mergeSort
          (fun a b : String × Nat => decide (b.2 ≤ a.2))).drop 5 :=
      (List.take_append_drop 5 _).symm
    rw [hsplit] at hpkL
    rcases List.mem_append.mp hpkL with htk | hdk
    · left
      refine ⟨RankedIndicator.mk pk.1 pk.2 ((pk.2 : ℚ) / data.length * 100), ?_, hpk1⟩
      rw [hout, ← List.map_take]
      exact List.mem_map.mpr ⟨pk, htk, rfl⟩
    · right
      have hlen6 : 5 < ((riskCounts data).mergeSort
          (fun a b : String × Nat => decide (b.2 ≤ a.2))).length := by
        by_contra hle
        push_neg at hle
        have hnil : ((riskCounts data).mergeSort
            (fun a b : String × Nat => decide (b.2 ≤ a.2))).drop 5 = [] :=
          List.drop_eq_nil_iff.mpr hle
        rw [hnil] at hdk
        cases hdk
      constructor
      · rw [hout]
        simp only [List.length_take, List.length_map]
        omega
      · intro e he
        rw [hout, ← List.map_take] at he
        obtain ⟨pe, hpe, rfl⟩ := List.mem_map.mp he
        have hs2 : ((((riskCounts data).mergeSort
              (fun a b : String × Nat => decide (b.2 ≤ a.2))).take 5) ++
            (((riskCounts data).mergeSort
              (fun a b : String × Nat => decide (b.2 ≤ a.2))).drop 5)).Pairwise
            (fun a b : String × Nat => decide (b.2 ≤ a.2) = true) := by
          rw [List.take_append_drop]
          exact hsort
        have hs3 : ((((riskCounts data).mergeSort
              (fun a b : String × Nat => decide (b.2 ≤ a.2))).take 5) ++
            (((riskCounts data).mergeSort
              (fun a b : String × Nat => decide (b.2 ≤ a.2))).drop 5)).Pairwise
            (fun p q => p.2 = q.2 →
              firstSeenIndex data p.1 < firstSeenIndex data q.1) := by
          rw [List.take_append_drop]
          exact hstab
        have hcross1 := (List.pairwise_append.mp hs2).2.2 pe hpe pk hdk
        have hcross2 := (List.pairwise_append.mp hs3).2.2 pe hpe pk hdk
        have hle' : pk.2 ≤ pe.2 := by simpa using hcross1
        have hvk : pk.2 = truthyCount data k := by
          rw [← hpk1]
          exact hval pk hpkrc
        by_cases heq : pk.2 = pe.2
        · right
          refine ⟨by show truthyCount data k = pe.2; omega, ?_⟩
          show firstSeenIndex data pe.1 < firstSeenIndex data k
          rw [← hpk1]
          exact hcross2 heq.symm
        · left
          show truthyCount data k < pe.2
          omega

/-- Claim C3 witness: the three witness results give counts
`a ↦ 1, b ↦ 2, c ↦ 1`; the evaluated output is exactly
`[(b, 2), (a, 1), (c, 1)]` — `b` first by frequency, the `a`/`c` tie broken
by first-seen order — and the ranking theorem applies at this input. -/
theorem risk_indicator_ranking_witness :
    (∀ r ∈ riskWitnessData, ((r.risk_indicators.getD []).map Prod.fst).Nodup) ∧
    (commonRiskIndicators riskWitnessData).map (fun e => (e.indicator, e.frequency)) =
      [("b", 2), ("a", 1), ("c", 1)] ∧
    ((commonRiskIndicators riskWitnessData).length ≤ 5 ∧
    (commonRiskIndicators riskWitnessData).length =
      min 5 (riskWitnessData.flatMap truthyKeys).dedup.length ∧
    ((commonRiskIndicators riskWitnessData).map (fun e => e.indicator)).Nodup ∧
    (∀ e ∈ commonRiskIndicators riskWitnessData,
      0 < truthyCount riskWitnessData e.indicator ∧
      e.frequency = truthyCount riskWitnessData e.indicator ∧
      e.percentage =
        (truthyCount riskWitnessData e.indicator : ℚ) / riskWitnessData.length * 100) ∧
    (commonRiskIndicators riskWitnessData).Pairwise
      (fun a b => b.frequency ≤ a.frequency) ∧
    (commonRiskIndicators riskWitnessData).Pairwise
      (fun a b => a.frequency = b.frequency →
        firstSeenIndex riskWitnessData a.indicator <
          firstSeenIndex riskWitnessData b.indicator) ∧
    (∀ k : String, 0 < truthyCount riskWitnessData k →
      (∃ e ∈ commonRiskIndicators riskWitnessData, e.indicator = k) ∨
      ((commonRiskIndicators riskWitnessData).length = 5 ∧
        ∀ e ∈ commonRiskIndicators riskWitnessData,
          truthyCount riskWitnessData k < e.frequency ∨
          (truthyCount riskWitnessData k = e.frequency ∧
            firstSeenIndex riskWitnessData e.indicator <
              firstSeenIndex riskWitnessData k)))) := by
  refine ⟨by decide, ?_, risk_indicator_ranking riskWitnessData (by decide)⟩
  simp [commonRiskIndicators, sortedRiskIndicators, riskCounts, riskWitnessData,
    truthyKeys, bumpKey, List.mergeSort, List.splitInTwo, List.merge]

lemma length_pos_and_exists_iff {α : Type} (l : List α) (p : α → Prop) :
    (0 < l.length ∧ ∃ x ∈ l, p x) ↔ ∃ x ∈ l, p x := by
  constructor
  · exact fun h => h.2
  · rintro ⟨x, hx, hpx⟩
    exact ⟨List.length_pos.mpr (List.ne_nil_of_mem hx), x, hx, hpx⟩

lemma exists_filter_gate_iff (dets : List DetectionResult) (ty : String)
    (p : DetectionResult → Prop) :
    (0 < (dets.filter (fun r => r.detection_type == ty)).length ∧
      ∃ r ∈ dets.filter (fun r => r.detection_type == ty), p r) ↔
    ∃ r ∈ dets, r.detection_type = ty ∧ p r := by
  rw [length_pos_and_exists_iff]
  constructor
  · rintro ⟨r, hr, hp⟩
    rw [List.mem_filter] at hr
    exact ⟨r, hr.1, by simpa using hr.2, hp⟩
  · rintro ⟨r, hr, hty, hp⟩
    exact ⟨r, List.mem_filter.mpr ⟨hr, by simpa using hty⟩, hp⟩

/-- Claim C6: the synthesized activity list starts with the two baseline
activities, then contains, in source evaluation order, exactly the
conditional activities whose gate holds (facial exercises when some facial
result is below 0.7; both speech activities when some speech result is below
0.7; memory training when the score is below 70 or "memory" is an area of
concern; social engagement when some behavioral result has a truthy
`social_withdrawal` indicator), and ends with the physical-exercise
activity. -/
theorem wellness_plan_activities (cog : CognitiveScoreRecord)
    (dets : List DetectionResult) :
    generatePlanActivities cog dets =
      [dailyCheckInActivity, mindfulnessActivity]
        ++ (if ∃ r ∈ dets, r.detection_type = "facial" ∧
              r.confidence_score < 0.7 then [facialExercisesActivity] else [])
        ++ (if ∃ r ∈ dets, r.detection_type = "speech" ∧
              r.confidence_score < 0.7 then
              [speechPracticeActivity, wordRetrievalActivity] else [])
        ++ (if cog.score < 70 ∨ "memory" ∈ cog.areas_of_concern.getD [] then
              [memoryTrainingActivity] else [])
        ++ (if ∃ r ∈ dets, r.detection_type = "behavioral" ∧
              socialWithdrawalTruthy r = true then
              [socialEngagementActivity] else [])
        ++ [physicalExerciseActivity] := by
  unfold generatePlanActivities
  simp only [exists_filter_gate_iff]

/-- Claim C8: the daily-metrics patch maps values by `dataType`: heart rate
verbatim; sleep hours to good/fair/poor at 7 and 5; activity to
high/moderate/low at 10000 and 5000; stress to low/moderate/high at 30 and
70; anything else is a no-op. -/
theorem metric_bucket_mapping (rec : HealthMetrics) (v : ℚ) :
    (updateHealthMetrics rec "heart_rate" v).resting_heart_rate = some v ∧
    (7 ≤ v → (updateHealthMetrics rec "sleep" v).sleep_quality = some "good") ∧
    (5 ≤ v → v < 7 → (updateHealthMetrics rec "sleep" v).sleep_quality = some "fair") ∧
    (v < 5 → (updateHealthMetrics rec "sleep" v).sleep_quality = some "poor") ∧
    (10000 ≤ v → (updateHealthMetrics rec "activity" v).activity_level = some "high") ∧
    (5000 ≤ v → v < 10000 →
      (updateHealthMetrics rec "activity" v).activity_level = some "moderate") ∧
    (v < 5000 → (updateHealthMetrics rec "activity" v).activity_level = some "low") ∧
    (v ≤ 30 → (updateHealthMetrics rec "stress" v).stress_level = some "low") ∧
    (30 < v → v ≤ 70 → (updateHealthMetrics rec "stress" v).stress_level = some "moderate") ∧
    (70 < v → (updateHealthMetrics rec "stress" v).stress_level = some "high") ∧
    (∀ dt : String, dt ≠ "heart_rate" → dt ≠ "sleep" → dt ≠ "activity" → dt ≠ "stress" →
      updateHealthMetrics rec dt v = rec) := by
  refine ⟨?_, ?_, ?_, ?_, ?_, ?_, ?_, ?_, ?_, ?_, ?_⟩
  · simp [updateHealthMetrics]
  · intro h
    simp [updateHealthMetrics, h]
  · intro h5 h7
    have h7' : ¬ 7 ≤ v := by linarith
    simp [updateHealthMetrics, h7', h5]
  · intro h5
    have h7' : ¬ 7 ≤ v := by linarith
    have h5' : ¬ 5 ≤ v := by linarith
    simp [updateHealthMetrics, h7', h5']
  · intro h
    simp [updateHealthMetrics, h]
  · intro h5 h10
    have h10' : ¬ 10000 ≤ v := by linarith
    simp [updateHealthMetrics, h10', h5]
  · intro h5
    have h10' : ¬ 10000 ≤ v := by linarith
    have h5' : ¬ 5000 ≤ v := by linarith
    simp [updateHealthMetrics, h10', h5']
  · intro h
    simp [updateHealthMetrics, h]
  · intro h30 h70
    have h30' : ¬ v ≤ 30 := by linarith
    simp [updateHealthMetrics, h30', h70]
  · intro h70
    have h30' : ¬ v ≤ 30 := by linarith
    have h70' : ¬ v ≤ 70 := by linarith
    simp [updateHealthMetrics, h30', h70']
  · intro dt h1 h2 h3 h4
    simp [updateHealthMetrics, h1, h2, h3, h4]

/-- Claim C8 witness: the spec's concrete sleep examples, `7.5 → good`,
`6 → fair`, `4 → poor`. -/
theorem metric_bucket_mapping_witness :
    ((7:ℚ) ≤ 7.5 ∧
      (updateHealthMetrics emptyHealthMetrics "sleep" 7.5).sleep_quality = some "good") ∧
    ((5:ℚ) ≤ 6 ∧ (6:ℚ) < 7 ∧
      (updateHealthMetrics emptyHealthMetrics "sleep" 6).sleep_quality = some "fair") ∧
    ((4:ℚ) < 5 ∧
      (updateHealthMetrics emptyHealthMetrics "sleep" 4).sleep_quality = some "poor") := by
  refine ⟨⟨by norm_num, (metric_bucket_mapping emptyHealthMetrics 7.5).2.1 (by norm_num)⟩,
    ⟨by norm_num, by norm_num,
      (metric_bucket_mapping emptyHealthMetrics 6).2.2.1 (by norm_num) (by norm_num)⟩,
    ⟨by norm_num, (metric_bucket_mapping emptyHealthMetrics 4).2.2.2.1 (by norm_num)⟩⟩

/-- Claim C9: a persistence failure after a successful computation does not
change what is returned: the PUT score handler returns the computed
cognitive-health value for every save outcome, and the plan GET handler
returns the computed plan content with `is_new = true`, `days_remaining = 7`
even when the save fails. -/
theorem best_effort_persistence (health : CognitiveHealth) (plan : PlanContent)
    (now : ℤ) (err : String) :
    putScoreResponse health (some err) = health ∧
    (∀ e : Option String, putScoreResponse health e = health) ∧
    contentOfReturnedPlan (planSynthResponse plan now (some err)).plan = plan ∧
    (planSynthResponse plan now (some err)).is_new = true ∧
    (planSynthResponse plan now (some err)).days_remaining = 7 ∧
    (∀ e : Option String, contentOfReturnedPlan (planSynthResponse plan now e).plan = plan) := by
  refine ⟨rfl, ?_, rfl, rfl, rfl, ?_⟩
  · intro e
    cases e <;> rfl
  · intro e
    cases e <;> rfl

/-- Claim C10: `updateHealthMetrics` swallows every internal failure (fetch
error, write rejection, unrecognized data type) and returns normally, so a
successful wearable-data insert always yields the success response,
regardless of the metrics update's outcome. -/
theorem wearable_post_metrics_isolation (db : MetricsDbOutcome)
    (dataType : String) (value : ℚ) :
    updateHealthMetricsRun db dataType value = Except.ok () ∧
    wearableDataPost (Except.ok ()) db dataType value =
      PostResponse.ok "Wearable data saved successfully" := by
  have h : updateHealthMetricsRun db dataType value = Except.ok () := by
    unfold updateHealthMetricsRun
    cases hb : updateHealthMetricsBody db dataType value <;> rfl
  refine ⟨h, ?_⟩
  unfold wearableDataPost
  rw [h]

lemma pickLater_ne_none (acc : Option StoredPlan) (p : StoredPlan) :
    pickLater acc p ≠ none := by
  cases acc with
  | none => simp [pickLater]
  | some b =>
    simp only [pickLater]
    split <;> simp

lemma foldl_pickLater_none {l : List StoredPlan} {acc : Option StoredPlan}
    (h : l.foldl pickLater acc = none) : l = [] ∧ acc = none := by
  induction l generalizing acc with
  | nil => exact ⟨rfl, h⟩
  | cons p tl ih =>
    rw [List.foldl_cons] at h
    obtain ⟨-, h2⟩ := ih h
    exact absurd h2 (pickLater_ne_none acc p)

lemma foldl_pickLater_is_max (l : List StoredPlan) :
    ∀ (acc : Option StoredPlan) (p : StoredPlan), l.foldl pickLater acc = some p →
      (∀ q ∈ l, q.created_at ≤ p.created_at) ∧
      (∀ b, acc = some b → b.created_at ≤ p.created_at) := by
  induction l with
  | nil =>
    intro acc p h
    refine ⟨by simp, fun b hb => ?_⟩
    rw [hb] at h
    cases h
    exact le_refl _
  | cons x tl ih =>
    intro acc p h
    rw [List.foldl_cons] at h
    obtain ⟨hmax, hacc⟩ := ih (pickLater acc x) p h
    have hx : x.created_at ≤ p.created_at := by
      cases acc with
      | none => exact hacc x rfl
      | some b =>
        by_cases hbx : b.created_at < x.created_at
        · exact hacc x (by simp [pickLater, hbx])
        · have hb := hacc b (by simp [pickLater, hbx])
          omega
    constructor
    · intro q hq
      rcases List.mem_cons.mp hq with rfl | hq'
      · exact hx
      · exact hmax q hq'
    · intro b hb
      subst hb
      by_cases hbx : b.created_at < x.created_at
      · omega
      · exact hacc b (by simp [pickLater, hbx])

lemma foldl_pickLater_newest (l : List StoredPlan) (b : StoredPlan)
    (h : ∀ q ∈ l, q.created_at < b.created_at) :
    l.foldl pickLater (some b) = some b := by
  induction l with
  | nil => rfl
  | cons x tl ih =>
    rw [List.foldl_cons]
    have hx : ¬ b.created_at < x.created_at := by
      have := h x (List.mem_cons_self x tl)
      omega
    rw [show pickLater (some b) x = some b from by simp [pickLater, hx]]
    exact ih (fun q hq => h q (List.mem_cons_of_mem x hq))

lemma latestActivePlan_le (st : PlanState) (p : StoredPlan)
    (h : latestActivePlan st = some p) :
    ∀ q ∈ st.plans, q.is_active = true → q.created_at ≤ p.created_at := by
  intro q hq hact
  have hqf : q ∈ st.plans.filter (fun r => r.is_active) :=
    List.mem_filter.mpr ⟨hq, hact⟩
  exact (foldl_pickLater_is_max _ none p h).1 q hqf

lemma ageInDays_lt_iff {now c : ℤ} : ageInDays now c < 7 ↔ now - c < 7 * 86400000 := by
  unfold ageInDays
  rw [Int.floor_lt, div_lt_iff (by norm_num : (0:ℚ) < 86400000)]
  constructor
  · intro h
    exact_mod_cast h
  · intro h
    exact_mod_cast h

lemma latestActivePlan_insert_newest (st : PlanState) (newPlan : StoredPlan)
    (hact : newPlan.is_active = true)
    (h : ∀ q ∈ st.plans, q.is_active = true → q.created_at < newPlan.created_at) :
    latestActivePlan { st with plans := newPlan :: st.plans } = some newPlan := by
  unfold latestActivePlan
  simp only
  rw [List.filter_cons, if_pos (by simp [hact])]
  rw [List.foldl_cons]
  rw [show pickLater none newPlan = some newPlan from rfl]
  apply foldl_pickLater_newest
  intro q hq
  rw [List.mem_filter] at hq
  exact h q hq.1 hq.2

lemma planFetch_all_older (st : PlanState) (now : ℤ)
    (hstale : ∀ p, latestActivePlan st = some p → 7 ≤ ageInDays now p.created_at) :
    ∀ q ∈ st.plans, q.is_active = true → q.created_at < now := by
  intro q hq hact
  cases hl : latestActivePlan st with
  | none =>
    exfalso
    unfold latestActivePlan at hl
    obtain ⟨hfe, -⟩ := foldl_pickLater_none hl
    have : q ∈ st.plans.filter (fun r => r.is_active) := List.mem_filter.mpr ⟨hq, hact⟩
    rw [hfe] at this
    cases this
  | some p =>
    have hq_le := latestActivePlan_le st p hl q hq hact
    have h7 := hstale p hl
    have : ¬ ageInDays now p.created_at < 7 := by omega
    rw [ageInDays_lt_iff] at this
    omega

lemma planFetch_synth_latest (st : PlanState) (now : ℤ)
    (hstale : ∀ p, latestActivePlan st = some p → 7 ≤ ageInDays now p.created_at) :
    latestActivePlan { st with plans :=
      { content := generatePlanContent st.cogScores st.detections,
        is_active := true, created_at := now } :: st.plans } =
    some { content := generatePlanContent st.cogScores st.detections,
           is_active := true, created_at := now } := by
  apply latestActivePlan_insert_newest st _ rfl
  exact planFetch_all_older st now hstale

/-- Claim C7: when an active plan younger than 7 days exists, the flow
returns it unchanged with `is_new = false` and
`days_remaining = 7 - ageInDays` without touching the state; otherwise it
synthesizes a plan from the stored scores and detections, persists it as the
new active plan, and returns `is_new = true`, `days_remaining = 7`; hence a
second fetch within the freshness window of the first response's plan (with
no intervening writes) returns the same plan, no longer new. -/
theorem plan_fetch_caching (st : PlanState) (now1 now2 : ℤ) (hn : now1 ≤ now2) :
    (∀ p, latestActivePlan st = some p → ageInDays now1 p.created_at < 7 →
      planFetch st now1 =
        ({ plan := p, is_new := false,
           days_remaining := 7 - ageInDays now1 p.created_at }, st)) ∧
    ((∀ p, latestActivePlan st = some p → 7 ≤ ageInDays now1 p.created_at) →
      (planFetch st now1).1.is_new = true ∧
      (planFetch st now1).1.days_remaining = 7 ∧
      (planFetch st now1).1.plan.content = generatePlanContent st.cogScores st.detections ∧
      (planFetch st now1).2.plans = (planFetch st now1).1.plan :: st.plans ∧
      latestActivePlan (planFetch st now1).2 = some (planFetch st now1).1.plan) ∧
    (ageInDays now2 (planFetch st now1).1.plan.created_at < 7 →
      (planFetch (planFetch st now1).2 now2).1.plan = (planFetch st now1).1.plan ∧
      (planFetch (planFetch st now1).2 now2).1.is_new = false) := by
  refine ⟨?_, ?_, ?_⟩
  · intro p hp hage
    simp [planFetch, hp, hage]
  · intro hstale
    have hlat := planFetch_synth_latest st now1 hstale
    cases hl : latestActivePlan st with
    | none =>
      refine ⟨by simp [planFetch, hl], by simp [planFetch, hl], by simp [planFetch, hl],
        by simp [planFetch, hl], ?_⟩
      have h2 : (planFetch st now1).2 = { st with plans :=
          { content := generatePlanContent st.cogScores st.detections,
            is_active := true, created_at := now1 } :: st.plans } := by
        simp [planFetch, hl]
      have h1 : (planFetch st now1).1.plan =
          { content := generatePlanContent st.cogScores st.detections,
            is_active := true, created_at := now1 } := by
        simp [planFetch, hl]
      rw [h1, h2]
      exact hlat
    | some p =>
      have hage : ¬ ageInDays now1 p.created_at < 7 := by
        have := hstale p hl
        omega
      refine ⟨by simp [planFetch, hl, hage], by simp [planFetch, hl, hage],
        by simp [planFetch, hl, hage], by simp [planFetch, hl, hage], ?_⟩
      have h2 : (planFetch st now1).2 = { st with plans :=
          { content := generatePlanContent st.cogScores st.detections,
            is_active := true, created_at := now1 } :: st.plans } := by
        simp [planFetch, hl, hage]
      have h1 : (planFetch st now1).1.plan =
          { content := generatePlanContent st.cogScores st.detections,
            is_active := true, created_at := now1 } := by
        simp [planFetch, hl, hage]
      rw [h1, h2]
      exact hlat
  · intro hfresh
    cases hl : latestActivePlan st with
    | some p =>
      by_cases hage : ageInDays now1 p.created_at < 7
      · have h1 : planFetch st now1 =
            ({ plan := p, is_new := false,
               days_remaining := 7 - ageInDays now1 p.created_at }, st) := by
          simp [planFetch, hl, hage]
        rw [h1] at hfresh ⊢
        simp only at hfresh ⊢
        constructor <;> simp [planFetch, hl, hfresh]
      · have hstale : ∀ q, latestActivePlan st = some q → 7 ≤ ageInDays now1 q.created_at := by
          intro q hq
          rw [hl] at hq
          cases hq
          omega
        have hlat := planFetch_synth_latest st now1 hstale
        have h1 : planFetch st now1 =
            ({ plan := { content := generatePlanContent st.cogScores st.detections,
                         is_active := true, created_at := now1 },
               is_new := true, days_remaining := 7 },
             { st with plans :=
               { content := generatePlanContent st.cogScores st.detections,
                 is_active := true, created_at := now1 } :: st.plans }) := by
          simp [planFetch, hl, hage]
        rw [h1] at hfresh ⊢
        simp only at hfresh ⊢
        constructor <;> simp [planFetch, hlat, hfresh]
    | none =>
      have hstale : ∀ q, latestActivePlan st = some q → 7 ≤ ageInDays now1 q.created_at := by
        intro q hq
        rw [hl] at hq
        cases hq
      have hlat := planFetch_synth_latest st now1 hstale
      have h1 : planFetch st now1 =
          ({ plan := { content := generatePlanContent st.cogScores st.detections,
                       is_active := true, created_at := now1 },
             is_new := true, days_remaining := 7 },
           { st with plans :=
             { content := generatePlanContent st.cogScores st.detections,
               is_active := true, created_at := now1 } :: st.plans }) := by
        simp [planFetch, hl]
      rw [h1] at hfresh ⊢
      simp only at hfresh ⊢
      constructor <;> simp [planFetch, hlat, hfresh]

/-- Claim C7 witness: the caching law applied to a state holding one active
plan created at epoch time `0`, fetched at times `0` and one day later. -/
theorem plan_fetch_caching_witness :
    ((0:ℤ) ≤ 86400000) ∧
    ((∀ p, latestActivePlan witnessPlanState = some p → ageInDays 0 p.created_at < 7 →
      planFetch witnessPlanState 0 =
        ({ plan := p, is_new := false,
           days_remaining := 7 - ageInDays 0 p.created_at }, witnessPlanState)) ∧
    ((∀ p, latestActivePlan witnessPlanState = some p → 7 ≤ ageInDays 0 p.created_at) →
      (planFetch witnessPlanState 0).1.is_new = true ∧
      (planFetch witnessPlanState 0).1.days_remaining = 7 ∧
      (planFetch witnessPlanState 0).1.plan.content =
        generatePlanContent witnessPlanState.cogScores witnessPlanState.detections ∧
      (planFetch witnessPlanState 0).2.plans =
        (planFetch witnessPlanState 0).1.plan :: witnessPlanState.plans ∧
      latestActivePlan (planFetch witnessPlanState 0).2 =
        some (planFetch witnessPlanState 0).1.plan) ∧
    (ageInDays 86400000 (planFetch witnessPlanState 0).1.plan.created_at < 7 →
      (planFetch (planFetch witnessPlanState 0).2 86400000).1.plan =
        (planFetch witnessPlanState 0).1.plan ∧
      (planFetch (planFetch witnessPlanState 0).2 86400000).1.is_new = false)) :=
  ⟨by norm_num, plan_fetch_caching witnessPlanState 0 86400000 (by norm_num)⟩

end NeuroLens
